import Mathlib

/-!
Verification development for the auto-assist question-answering engine.

Shallow embedding of the core components:
* `src/assistx/agents/executor.py` — the bounded query draft/repair loop;
* `src/assistx/answers_store.py` — the answer state store, its recency
  indexes, pub/sub publishing, and cursor pagination;
* `src/assistx/idempotency_store.py` — the idempotency key store;
* `src/assistx/sandbox_runner.py` and `src/assistx/agents/analyst.py` — the
  two sandbox variants' builtin environments;
* `src/assistx/agents/pipeline/qa_pipeline.py` — the result-cache key
  derivation and the cache-tolerant question-answering pipeline.

External collaborators (the Neo4j driver, the LLM oracle, Redis, the OS
clock) are modelled as explicit parameters: fallible calls are values of
`Except`, the Redis keyspace is explicit state, and `time.time()` readings
are passed in as arguments.
-/

namespace AssistX

/-! ## Repair-loop executor (src/assistx/agents/executor.py)

`draft_cypher` / `repair_cypher` return JSON dicts; `plan.get("cypher", d)`
and `plan.get("notes")` become `Option` projections.  The Neo4j session is
modelled as `exec : Nat → String → Except String ρ`: attempt index and query
text in, either rows (of an abstract row-list type `ρ`) or the stringified
execution error out.  The instrumentation fields (`execCalls`, `draftCalls`,
`trace`) record how many times the database and the draft oracle were
invoked and every appended attempt record, mirroring the `attempts` list
that the Python code builds (which is local, hence lost, when the function
falls through or raises). -/

/-- A structured oracle proposal: `{"cypher": ..., "notes"/"fix": ...}`. -/
structure Plan where
  cypher : Option String
  notes : Option String
deriving DecidableEq, Repr

/-- One entry of the attempts log:
`{"cypher":…, "ok":…, "error":…, "fix":…}` (executor.py line 26/30). -/
structure Attempt where
  cypher : String
  ok : Bool
  error : Option String
  fix : Option String
deriving DecidableEq, Repr

/-- Instrumented outcome of `execute_with_repairs`.  `result` is the Python
return value: `.error e` models a raised exception, `.ok none` models the
implicit `None` returned when the `for` body never runs, and
`.ok (some (cypher, rows, attempts))` the documented triple. -/
structure RunOutcome (ρ : Type) where
  result : Except String (Option (String × ρ × List Attempt))
  execCalls : Nat
  draftCalls : Nat
  trace : List Attempt

/-- The `for attempt in range(max_attempts)` loop of `execute_with_repairs`
(executor.py lines 20-36).  `remaining` counts iterations still allowed, so
the source guard `attempt >= max_attempts - 1` is exactly `remaining = 1`
(here: the `r = 0` test after peeling one iteration).  Returns
(result, number of executions performed, full attempts log). -/
def repairGo {ρ : Type} (exec : Nat → String → Except String ρ)
    (repair : String → String → Plan) :
    Nat → Nat → String → Plan → List Attempt →
    Except String (Option (String × ρ × List Attempt)) × Nat × List Attempt
  | 0, _, _, _, acc => (.ok none, 0, acc)
  | r + 1, idx, cypher, plan, acc =>
    match exec idx cypher with
    | .ok rows =>
      let att : Attempt := ⟨cypher, true, none, plan.notes⟩
      (.ok (some (cypher, rows, acc ++ [att])), 1, acc ++ [att])
    | .error e =>
      let att : Attempt := ⟨cypher, false, some e, none⟩
      if r = 0 then
        (.error e, 1, acc ++ [att])
      else
        let plan2 := repair cypher e
        let out := repairGo exec repair r (idx + 1) (plan2.cypher.getD cypher)
          plan2 (acc ++ [att])
        (out.1, out.2.1 + 1, out.2.2)

/-- `execute_with_repairs` (executor.py lines 5-36).  `max_attempts` is a
Python `int`, so it is an `Int` here; `range(max_attempts)` iterates
`max_attempts.toNat` times.  The draft oracle is called exactly once before
the loop (`plan = draft_cypher(...)`; `cypher = plan.get("cypher", "")`). -/
def execute_with_repairs {ρ : Type} (exec : Nat → String → Except String ρ)
    (repair : String → String → Plan) (draft : Plan) (max_attempts : Int) :
    RunOutcome ρ :=
  let out := repairGo exec repair max_attempts.toNat 0 (draft.cypher.getD "") draft []
  ⟨out.1, out.2.1, 1, out.2.2⟩

/-- A concrete database stub for witnesses: the first execution fails with a
syntax error, every later one returns the row set `7`. -/
def wExec : Nat → String → Except String Nat :=
  fun i _ => if i = 0 then .error "syntax error" else .ok 7

/-- A concrete repair oracle stub for witnesses. -/
def wRepair : String → String → Plan := fun _ _ => ⟨some "q2", some "fixed"⟩

/-- A concrete draft proposal for witnesses. -/
def wDraft : Plan := ⟨some "q1", none⟩

/-! ## Answer state store (src/assistx/answers_store.py)

The Redis keyspace is explicit state: answer records live in an association
list keyed by answer id (`setex`/`get` become upsert/lookup; TTL eviction is
modelled as absence of the key), the five sorted sets (`INDEX_ALL` and the
four per-status indexes) are association lists of `(member, score)` kept in
Redis iteration order for `ZREVRANGEBYSCORE`: descending score, ties in
descending member order.  `json.dumps`/`json.loads` of a record is a
faithful round trip, so records are stored structurally.  Each mutator takes
the current `int(time.time() * 1000)` reading as an explicit `now` argument
and returns the new state together with `Except PyErr Unit`: `.error`
models a raised Python exception (mutations already applied to Redis are
kept, as in the source). -/

deriving instance DecidableEq for Except

/-- Python exception values that the embedded code can raise. -/
inductive PyErr where
  | typeError (msg : String)
  | nameError (name : String)
  | permissionError (msg : String)
  | importError (msg : String)
deriving DecidableEq, Repr

/-- An answer record, the JSON object built in `init_answer`
(answers_store.py lines 82-93).  The `data` payload is opaque here. -/
structure Answer where
  id : String
  question : String
  status : String
  created_at : Int
  updated_at : Int
  job_id : Option String
  run_id : Option String
  data : Option String
  error : Option String
  meta : List (String × String)
deriving DecidableEq, Repr

/-- `CHANNEL_PREFIX` (answers_store.py line 14). -/
def CHANNEL_PFX : String := "assistx:answers"

/-- `GLOBAL_CHAN` (line 15). -/
def GLOBAL_CHAN : String := CHANNEL_PFX ++ ":events"

/-- `ALL_STATUSES` (line 18). -/
def ALL_STATUSES : List String := ["QUEUED", "RUNNING", "DONE", "FAILED"]

/-- `_chan(answer_id)` (lines 27-28). -/
def chan (answer_id : String) : String := CHANNEL_PFX ++ ":" ++ answer_id ++ ":events"

/-- Ordering of zset entries as `ZREVRANGEBYSCORE` iterates them:
`a` comes no later than `b` iff `a` has the larger score, or scores are
equal and `a` has the reverse-lexicographically earlier (i.e. larger)
member. -/
def zBefore (a b : String × Int) : Bool :=
  decide (b.2 < a.2 ∨ (a.2 = b.2 ∧ b.1 ≤ a.1))

/-- Insert an entry into a zset list kept in `zBefore` order. -/
def zinsert (e : String × Int) : List (String × Int) → List (String × Int)
  | [] => [e]
  | x :: xs => if zBefore e x then e :: x :: xs else x :: zinsert e xs

/-- `ZREM`: drop a member from a zset. -/
def zrem (z : List (String × Int)) (m : String) : List (String × Int) :=
  z.filter (fun p => p.1 ≠ m)

/-- `ZADD`: upsert a member with a score (replacing any previous score),
keeping the list in iteration order. -/
def zadd (z : List (String × Int)) (m : String) (score : Int) : List (String × Int) :=
  zinsert (m, score) (zrem z m)

/-- The modelled Redis keyspace used by the answers store: answer records,
`INDEX_ALL`, the four `INDEX_STATUS_PREFIX` zsets, and the list of pub/sub
messages `(channel, event type, payload)` actually delivered so far. -/
structure StoreState where
  answers : List (String × Answer)
  idxAll : List (String × Int)
  idxQueued : List (String × Int)
  idxRunning : List (String × Int)
  idxDone : List (String × Int)
  idxFailed : List (String × Int)
  events : List (String × String × Answer)
deriving DecidableEq, Repr

/-- The empty keyspace. -/
def emptyStore : StoreState := ⟨[], [], [], [], [], [], []⟩

/-- `redis.get` on a string-keyed keyspace. -/
def kvGet {β : Type} (l : List (String × β)) (k : String) : Option β :=
  match l with
  | [] => none
  | (k', v) :: rest => if k' = k then some v else kvGet rest k

/-- `redis.setex` on a string-keyed keyspace: overwrite or append. -/
def kvSet {β : Type} (l : List (String × β)) (k : String) (v : β) :
    List (String × β) :=
  if l.any (fun p => decide (p.1 = k)) then
    l.map (fun p => if p.1 = k then (k, v) else p)
  else l ++ [(k, v)]

/-- The per-status zset named `INDEX_STATUS_PREFIX + s`. -/
def statusIdx (st : StoreState) (s : String) : List (String × Int) :=
  if s = "QUEUED" then st.idxQueued
  else if s = "RUNNING" then st.idxRunning
  else if s = "DONE" then st.idxDone
  else if s = "FAILED" then st.idxFailed
  else []

/-- Replace the per-status zset named `INDEX_STATUS_PREFIX + s`. -/
def setStatusIdx (st : StoreState) (s : String) (z : List (String × Int)) : StoreState :=
  if s = "QUEUED" then {st with idxQueued := z}
  else if s = "RUNNING" then {st with idxRunning := z}
  else if s = "DONE" then {st with idxDone := z}
  else if s = "FAILED" then {st with idxFailed := z}
  else st

/-- `_index_upsert` (lines 54-67): zadd into the global index with score
`updated_at`, zrem from every per-status index, zadd into the one matching
the record's current status when that status is one of `ALL_STATUSES`. -/
def index_upsert (st : StoreState) (a : Answer) : StoreState :=
  let score := a.updated_at
  let st1 := {st with idxAll := zadd st.idxAll a.id score}
  let st2 := {st1 with idxQueued := zrem st1.idxQueued a.id,
                       idxRunning := zrem st1.idxRunning a.id,
                       idxDone := zrem st1.idxDone a.id,
                       idxFailed := zrem st1.idxFailed a.id}
  if a.status ∈ ALL_STATUSES then
    setStatusIdx st2 a.status (zadd (statusIdx st2 a.status) a.id score)
  else st2

/-- `_index_remove` (lines 69-74). -/
def index_remove (st : StoreState) (answer_id : String) : StoreState :=
  {st with idxAll := zrem st.idxAll answer_id,
           idxQueued := zrem st.idxQueued answer_id,
           idxRunning := zrem st.idxRunning answer_id,
           idxDone := zrem st.idxDone answer_id,
           idxFailed := zrem st.idxFailed answer_id}

/-- The two-channel `_publish` defined at answers_store.py lines 35-41.
This binding is dead code: the module defines `_publish` a second time at
lines 44-48, and in Python the later definition shadows this one before any
caller runs.  Modelled for reference as it documents the intended
behaviour: the `{type, data}` envelope on the per-answer channel and on the
global channel. -/
def publish_two_channel (st : StoreState) (a : Answer) (ev_type : String) : StoreState :=
  {st with events := st.events ++ [(chan a.id, ev_type, a), (GLOBAL_CHAN, ev_type, a)]}

/-- The effective `_publish` (lines 44-48): one positional parameter, emits
the `{"type": "update", "data": answer}` envelope on the per-answer channel
only, swallowing backend errors. -/
def publish_effective (st : StoreState) (a : Answer) : StoreState :=
  {st with events := st.events ++ [(chan a.id, "update", a)]}

/-- Every mutator calls `_publish(obj, ev_type=...)` (lines 96, 110, 122,
133).  The effective `_publish` accepts no `ev_type` keyword argument, so
Python raises `TypeError` at the call site: the publisher body never runs,
no message is emitted on any channel, and the `TypeError` propagates out of
the mutator (it is outside the publisher's own `try`/`except`). -/
def publish_call_with_ev_type (st : StoreState) (_a : Answer) (_ev_type : String) :
    StoreState × Except PyErr Unit :=
  (st, .error (.typeError "publish got an unexpected keyword argument ev_type"))

/-- `init_answer` (lines 80-96). -/
def init_answer (st : StoreState) (answer_id question : String)
    (user_meta : List (String × String)) (now : Int) : StoreState × Except PyErr Unit :=
  let obj : Answer :=
    ⟨answer_id, question, "QUEUED", now, now, none, none, none, none, user_meta⟩
  let st1 := {st with answers := kvSet st.answers answer_id obj}
  let st2 := index_upsert st1 obj
  publish_call_with_ev_type st2 obj "new"

/-- `get_answer` (lines 135-142). -/
def get_answer (st : StoreState) (answer_id : String) : Option Answer :=
  kvGet st.answers answer_id

/-- `set_status` (lines 98-110): no-op on a missing record, otherwise
overwrite `status` (unconditionally), optionally `job_id`/`run_id`, refresh
`updated_at`, persist, re-index, then attempt to publish. -/
def set_status (st : StoreState) (answer_id status : String)
    (job_id run_id : Option String) (now : Int) : StoreState × Except PyErr Unit :=
  match get_answer st answer_id with
  | none => (st, .ok ())
  | some obj0 =>
    let obj := {obj0 with
      status := status,
      job_id := match job_id with | none => obj0.job_id | some j => some j,
      run_id := match run_id with | none => obj0.run_id | some r => some r,
      updated_at := now}
    let st1 := {st with answers := kvSet st.answers answer_id obj}
    let st2 := index_upsert st1 obj
    publish_call_with_ev_type st2 obj "update"

/-- `set_result` (lines 112-122). -/
def set_result (st : StoreState) (answer_id : String) (data : String) (now : Int) :
    StoreState × Except PyErr Unit :=
  match get_answer st answer_id with
  | none => (st, .ok ())
  | some obj0 =>
    let obj := {obj0 with data := some data, error := none, status := "DONE",
                          updated_at := now}
    let st1 := {st with answers := kvSet st.answers answer_id obj}
    let st2 := index_upsert st1 obj
    publish_call_with_ev_type st2 obj "update"

/-- `set_error` (lines 124-133); note it does not clear `data`. -/
def set_error (st : StoreState) (answer_id err : String) (now : Int) :
    StoreState × Except PyErr Unit :=
  match get_answer st answer_id with
  | none => (st, .ok ())
  | some obj0 =>
    let obj := {obj0 with error := some err, status := "FAILED", updated_at := now}
    let st1 := {st with answers := kvSet st.answers answer_id obj}
    let st2 := index_upsert st1 obj
    publish_call_with_ev_type st2 obj "update"

/-! ### Pagination (answers_store.py lines 145-201) -/

/-- Python `str.lower()` on one character.  Python lowercasing is
unicode-aware; every string this system feeds through it (questions,
statuses) is compared case-insensitively over ASCII, where mapping the
range A-Z down by 32 is exact. -/
def pyLowerChar (c : Char) : Char :=
  if 'A' ≤ c ∧ c ≤ 'Z' then Char.ofNat (c.toNat + 32) else c

/-- Python `str.lower()`. -/
def pyLower (s : String) : String := ⟨s.data.map pyLowerChar⟩

/-- Python whitespace for `str.strip()`. -/
def isSpaceChar (c : Char) : Bool :=
  decide (c = ' ' ∨ c = '\t' ∨ c = '\n' ∨ c = '\r' ∨ c = '\x0b' ∨ c = '\x0c')

/-- Python `str.strip()`: drop leading and trailing whitespace. -/
def pyStrip (s : String) : String :=
  ⟨((s.data.dropWhile isSpaceChar).reverse.dropWhile isSpaceChar).reverse⟩

/-- Does the char list `needle` lead the char list `hay`? -/
def leadsWith : List Char → List Char → Bool
  | [], _ => true
  | _ :: _, [] => false
  | c :: cs, h :: hs => c = h && leadsWith cs hs

/-- Substring occurrence over char lists. -/
def hasSubAux (needle : List Char) : List Char → Bool
  | [] => leadsWith needle []
  | h :: hs => leadsWith needle (h :: hs) || hasSubAux needle hs

/-- Python's `needle in hay` on strings. -/
def containsSub (hay needle : String) : Bool := hasSubAux needle.data hay.data

/-- Python truthiness of the optional `status` argument: `None` and the
empty string are falsy. -/
def statusTruthy : Option String → Option String
  | none => none
  | some s => if s = "" then none else some s

/-- `_index_key_for_status(status if status in ALL_STATUSES else None)`
(lines 51-52 and 166): the per-status zset when the argument is one of
`ALL_STATUSES`, the global index otherwise. -/
def indexFor (st : StoreState) (skey : Option String) : List (String × Int) :=
  match skey with
  | none => st.idxAll
  | some s => statusIdx st s

/-- The part of a zset strictly below an exclusive upper score bound (all
of it when the bound is absent), in iteration order. -/
def zbound (z : List (String × Int)) (maxb : Option Int) : List (String × Int) :=
  match maxb with
  | none => z
  | some b => z.filter (fun p => p.2 < b)

/-- `ZREVRANGEBYSCORE key maxb -inf LIMIT 0 num` with an exclusive upper
bound when present: entries of score strictly below the bound, in iteration
order (the zset lists are kept in that order), truncated to `num`. -/
def zrevrangebyscore (z : List (String × Int)) (maxb : Option Int) (num : Nat) :
    List (String × Int) :=
  (zbound z maxb).take num

/-- The `for aid, score in batch` body (lines 185-198): fetch the record
(removing a stale index entry when it is gone), apply the status and
substring filters, collect until `limit` is reached, at which point the
cursor `(updated_at, id)` of the last collected record is produced and the
loop breaks. -/
def scanBatch (status : Option String) (q_norm : String) (limit : Nat) :
    List (String × Int) → StoreState → List Answer →
    StoreState × List Answer × Option (Int × String)
  | [], st, items => (st, items, none)
  | (aid, _) :: rest, st, items =>
    match get_answer st aid with
    | none => scanBatch status q_norm limit rest (index_remove st aid) items
    | some obj =>
      let statusReject :=
        match statusTruthy status with
        | some s => decide (obj.status ≠ s)
        | none => false
      let qReject := q_norm ≠ "" ∧ containsSub (pyLower obj.question) q_norm = false
      if statusReject then scanBatch status q_norm limit rest st items
      else if qReject then scanBatch status q_norm limit rest st items
      else
        let items' := items ++ [obj]
        if items'.length = limit then (st, items', some (obj.updated_at, obj.id))
        else scanBatch status q_norm limit rest st items'

/-- The `while len(items) < limit and loops < 6` window loop (lines
175-199).  `fuel` counts the iterations still allowed (6 at top level); the
returned `List Nat` records the length of every window fetched, one entry
per `ZREVRANGEBYSCORE` round trip. -/
def pageGo (skey status : Option String) (q_norm : String) (limit window : Nat) :
    Nat → StoreState → Option Int → List Answer → List Nat →
    StoreState × List Answer × Option (Int × String) × List Nat
  | 0, st, _, items, scans => (st, items, none, scans)
  | fuel + 1, st, maxb, items, scans =>
    if items.length < limit then
      let batch := zrevrangebyscore (indexFor st skey) maxb window
      match batch.getLast? with
      | none => (st, items, none, scans)
      | some lastE =>
        let out := scanBatch status q_norm limit batch st items
        match out.2.2 with
        | some cur => (out.1, out.2.1, some cur, scans ++ [batch.length])
        | none =>
          pageGo skey status q_norm limit window fuel out.1 (some lastE.2) out.2.1
            (scans ++ [batch.length])
    else (st, items, none, scans)

/-- One page of `list_answers_paginated`, `scans` instrumentation included
(one entry per index window fetched). -/
structure PageResult where
  items : List Answer
  count : Nat
  next_cursor : Option (Int × String)
  scans : List Nat
deriving DecidableEq, Repr

/-- `list_answers_paginated` (lines 155-201).  The cursor is carried as the
parsed pair `(score, id)`: the source encodes it as the string
`f"<updated_at>:<id>"` and `_parse_cursor` splits at the first colon and
truncates the score with `int(float(...))`, which round-trips exactly for
the integer millisecond scores and colon-free hex ids the store emits.
Only the score component is ever used (line 170), as an exclusive bound. -/
def list_answers_paginated (st : StoreState) (status : Option String)
    (q : Option String) (limit : Nat) (cursor : Option (Int × String)) :
    StoreState × PageResult :=
  let skey := match status with
    | some s => if s ∈ ALL_STATUSES then some s else none
    | none => none
  let q_norm := pyLower (pyStrip (q.getD ""))
  let maxb : Option Int := cursor.map (fun c => c.1)
  let window := max 50 (limit * 3)
  let out := pageGo skey status q_norm limit window 6 st maxb [] []
  (out.1, ⟨out.2.1, out.2.1.length, out.2.2.1, out.2.2.2⟩)

/-- Walking the listing page by page: call `list_answers_paginated`, feed
each returned `next_cursor` into the following call, stop at `none`.
`fuel` bounds the number of pages (the walk itself is the caller's loop,
not source code). -/
def walkPages (status q : Option String) (limit : Nat) :
    Nat → StoreState → Option (Int × String) → List Answer
  | 0, _, _ => []
  | fuel + 1, st, cursor =>
    let out := list_answers_paginated st status q limit cursor
    out.2.items ++
      (match out.2.next_cursor with
       | none => []
       | some c => walkPages status q limit fuel out.1 (some c))

/-! ## Idempotency store (src/assistx/idempotency_store.py)

The Redis keyspace is again an association list (string key to stored JSON
record, the record kept opaque).  `save` is a bare `setex` (line 12), which
overwrites any existing value at the key; `load` is `get` (lines 14-16).
The claims' "before TTL expiry" situation corresponds to no eviction
happening between the calls, i.e. to operating on the list directly. -/

/-- `_key(k)` of idempotency_store.py (lines 8-9). -/
def idemKey (k : String) : String := "assistx:idemp:" ++ k

/-- `save(key, record)` (lines 11-12): a plain `setex`. -/
def save (st : List (String × String)) (key record : String) : List (String × String) :=
  kvSet st (idemKey key) record

/-- `load(key)` (lines 14-16). -/
def load (st : List (String × String)) (key : String) : Option String :=
  kvGet st (idemKey key)

/-! ## Concrete stores used by counterexamples and witnesses -/

/-- A store holding one freshly initialised answer `a1` (the raised
`TypeError` of the publish call does not undo the Redis writes). -/
def demoInit : StoreState := (init_answer emptyStore "a1" "how many tasks" [] 100).1

/-- `demoInit` after `set_result("a1", ...)`: the record is DONE. -/
def demoDone : StoreState := (set_result demoInit "a1" "payload" 200).1

/-- `demoDone` after a subsequent `set_status("a1", "RUNNING")`. -/
def demoAfter : StoreState := (set_status demoDone "a1" "RUNNING" none none 300).1

/-- Two DONE answers sharing `updated_at = 5`. -/
def tieA : Answer := ⟨"a", "qa", "DONE", 5, 5, none, none, none, none, []⟩

/-- See `tieA`. -/
def tieB : Answer := ⟨"b", "qb", "DONE", 5, 5, none, none, none, none, []⟩

/-- A consistent store holding exactly `tieA` and `tieB`; the index lists
them in Redis iteration order (equal scores, descending member). -/
def tieStore : StoreState :=
  ⟨[("a", tieA), ("b", tieB)], [("b", 5), ("a", 5)], [], [],
    [("b", 5), ("a", 5)], [], []⟩

/-- The deep store's index ids in Redis iteration order: 50 answers
`i59 … i10`, then `i00`, all sharing `updated_at = 100` (equal scores
iterate in descending id order). -/
def deepId (k : Nat) : String :=
  if k < 50 then "i" ++ toString (59 - k) else "i00"

/-- Entry `k` of the deep store's index. -/
def deepEntry (k : Nat) : String × Int := (deepId k, 100)

/-- Record `k` of the deep store: only record 50 — the id `i00`, iterated
after the 50 ids that fill one whole `ZREVRANGEBYSCORE` window of the same
score — matches the substring "needle". -/
def deepAnswer (k : Nat) : Answer :=
  ⟨deepId k, if k = 50 then "find the needle here" else "nothing",
    "DONE", 100, 100, none, none, none, none, []⟩

/-- A store with 51 live answers sharing one recency score: one listing
call with `limit = 1` fetches a single full 50-entry window, rejects every
candidate on the substring filter, moves its exclusive bound below the
shared score, finds the next window empty and stops — without ever fetching
`i00`. -/
def deepStore : StoreState :=
  ⟨(List.range 51).map (fun k => (deepId k, deepAnswer k)),
    (List.range 51).map deepEntry, [], [], (List.range 51).map deepEntry, [], []⟩

/-! ### Consistency of a store, for the pagination-walk theorems -/

/-- The option holds a value satisfying `p`. -/
def optionHolds {α : Type} (o : Option α) (p : α → Prop) : Prop :=
  match o with
  | none => False
  | some a => p a

instance {α : Type} (o : Option α) (p : α → Prop) [DecidablePred p] :
    Decidable (optionHolds o p) :=
  match o with
  | none => isFalse (fun h => h)
  | some a => if h : p a then isTrue h else isFalse h

/-- The global recency index and the record keyspace agree: every index
entry points at a live record carrying that id and that score, and every
live record appears in the index under its id and `updated_at` and is the
record its key resolves to. -/
abbrev Consistent (st : StoreState) : Prop :=
  (∀ e ∈ st.idxAll, optionHolds (get_answer st e.1)
    (fun a => a.id = e.1 ∧ a.updated_at = e.2)) ∧
  (∀ p ∈ st.answers, (p.2.id, p.2.updated_at) ∈ st.idxAll ∧ p.1 = p.2.id ∧
    get_answer st p.1 = some p.2)

/-- Strictly descending scores along a zset: no two entries share an
`updated_at`. -/
abbrev SDesc (z : List (String × Int)) : Prop :=
  z.Pairwise (fun a b => b.2 < a.2)

/-- Placeholder record for the (never taken) missing-record branch of
`fetched`. -/
def dummyAnswer : Answer := ⟨"", "", "", 0, 0, none, none, none, none, []⟩

/-- The records a list of index entries resolves to. -/
def fetched (st : StoreState) (es : List (String × Int)) : List Answer :=
  es.map (fun e => (get_answer st e.1).getD dummyAnswer)

/-- The index entries a page walk starting at `cursor` still has in front
of it (the source uses only the cursor's score, as an exclusive bound). -/
def remOf (st : StoreState) (cursor : Option (Int × String)) : List (String × Int) :=
  zbound st.idxAll (cursor.map (fun c => c.1))

/-- Two DONE answers with distinct `updated_at`, and the consistent store
holding them, for witnesses. -/
def duoA : Answer := ⟨"a", "qa", "DONE", 5, 5, none, none, none, none, []⟩

/-- See `duoA`. -/
def duoB : Answer := ⟨"b", "qb", "DONE", 9, 9, none, none, none, none, []⟩

/-- See `duoA`. -/
def duoStore : StoreState :=
  ⟨[("a", duoA), ("b", duoB)], [("b", 9), ("a", 5)], [], [],
    [("b", 9), ("a", 5)], [], []⟩

/-! ## Sandbox builtin environments (src/assistx/sandbox_runner.py and
src/assistx/agents/analyst.py)

What decides the fate of a call to `open` inside `exec(code, globals)` is
the `__builtins__` mapping installed in those globals: Python resolves the
name `open` there, raising `NameError` when it is absent, and otherwise
calls whatever function the mapping holds.  The two environments are
embedded as name tables. -/

/-- The callables installed in a sandbox `__builtins__` mapping. -/
inductive SbxFun where
  | pyLen | pyRange | pyMin | pyMax | pySum | pySorted | pyEnumerate | pyZip
  | pyAbs | pyRound | pyAny | pyAll | pyList | pyDict | pySet | pyTuple
  | noOpen
  | safeImport
deriving DecidableEq, Repr

/-- The out-of-process runner's namespace (sandbox_runner.py lines 6-10 and
40-44): `SAFE_BUILTINS` plus `__import__ = safe_import` plus
`open = _no_open`. -/
def runnerBuiltins : List (String × SbxFun) :=
  [("len", .pyLen), ("range", .pyRange), ("min", .pyMin), ("max", .pyMax),
   ("sum", .pySum), ("sorted", .pySorted), ("enumerate", .pyEnumerate),
   ("zip", .pyZip), ("abs", .pyAbs), ("round", .pyRound), ("any", .pyAny),
   ("all", .pyAll), ("list", .pyList), ("dict", .pyDict), ("set", .pySet),
   ("tuple", .pyTuple), ("__import__", .safeImport), ("open", .noOpen)]

/-- The in-process `run_user_code` namespace (analyst.py line 31): six pure
functions; neither `open` nor `__import__` is present. -/
def analystBuiltins : List (String × SbxFun) :=
  [("len", .pyLen), ("range", .pyRange), ("min", .pyMin), ("max", .pyMax),
   ("sum", .pySum), ("sorted", .pySorted)]

/-- A file handle; no sandbox evaluation ever produces one. -/
structure FileHandle where
  path : String
deriving DecidableEq, Repr

/-- `ALLOW_IMPORTS` (sandbox_runner.py line 12). -/
def ALLOW_IMPORTS : List String := ["pandas", "math", "statistics"]

/-- `name.split(".")[0]`. -/
def headModule (s : String) : String := ⟨s.data.takeWhile (fun c => c ≠ '.')⟩

/-- `safe_import` (sandbox_runner.py lines 14-17). -/
def safe_import (name : String) : Except PyErr Unit :=
  if headModule name ∈ ALLOW_IMPORTS then .ok ()
  else .error (.importError ("Import not allowed: " ++ name))

/-- Evaluating the expression `open(path)` under a builtin namespace:
a missing `open` name raises `NameError`; `_no_open` (sandbox_runner.py
line 43) raises `PermissionError("file I/O disabled")`; any other installed
builtin is not a file opener and cannot yield a handle (its application to
a path is a `TypeError`-class failure). -/
def openAttempt (env : List (String × SbxFun)) (_path : String) :
    Except PyErr FileHandle :=
  match kvGet env "open" with
  | none => .error (.nameError "name open is not defined")
  | some .noOpen => .error (.permissionError "file I/O disabled")
  | some _ => .error (.typeError "object is not callable as open")

/-- Is the outcome a capability-denied (permission) error? -/
def isPermissionDenied : Except PyErr FileHandle → Bool
  | .error (.permissionError _) => true
  | _ => false

/-! ## Result cache key (src/assistx/agents/pipeline/qa_pipeline.py lines
22-30)

`_cache_key` feeds `question.strip().lower()` through `hashlib.sha1` and
combines the hex digest with the schema fingerprint and the format version
tag; `_schema_fp` is the first 12 hex chars of the SHA-1 of the canonical
(sorted-keys) JSON serialization of the schema, which the embedding takes
as its (already serialized) input string.  SHA-1 below follows FIPS 180:
32-bit words are `Nat` values reduced mod `2^32`. -/

/-- Rotate a 32-bit word left by `k`. -/
def rotl32 (n k : Nat) : Nat := ((n <<< k) ||| (n >>> (32 - k))) % 4294967296

/-- The SHA-1 round function for round `t`. -/
def sha1F (t b c d : Nat) : Nat :=
  if t < 20 then (b &&& c) ||| ((b ^^^ 4294967295) &&& d)
  else if t < 40 then b ^^^ c ^^^ d
  else if t < 60 then (b &&& c) ||| (b &&& d) ||| (c &&& d)
  else b ^^^ c ^^^ d

/-- The SHA-1 round constant for round `t`. -/
def sha1K (t : Nat) : Nat :=
  if t < 20 then 1518500249
  else if t < 40 then 1859775393
  else if t < 60 then 2400959708
  else 3395469782

/-- Big-endian 32-bit words from a 64-byte chunk. -/
def chunkWords : List Nat → List Nat
  | b0 :: b1 :: b2 :: b3 :: rest => (((b0 * 256 + b1) * 256 + b2) * 256 + b3) :: chunkWords rest
  | _ => []

/-- Message-schedule extension, carrying the words most-recent-first. -/
def extendW (revW : List Nat) : Nat → List Nat
  | 0 => revW
  | n + 1 =>
    extendW (rotl32 ((revW.getD 2 0) ^^^ (revW.getD 7 0) ^^^ (revW.getD 13 0) ^^^
      (revW.getD 15 0)) 1 :: revW) n

/-- One SHA-1 round applied to the working state. -/
def sha1Round (st : Nat × Nat × Nat × Nat × Nat) (t w : Nat) :
    Nat × Nat × Nat × Nat × Nat :=
  let (a, b, c, d, e) := st
  let temp := (rotl32 a 5 + sha1F t b c d + e + sha1K t + w) % 4294967296
  (temp, a, rotl32 b 30, c, d)

/-- Process one 64-byte chunk. -/
def processChunk (h : Nat × Nat × Nat × Nat × Nat) (chunk : List Nat) :
    Nat × Nat × Nat × Nat × Nat :=
  let ws := (extendW (chunkWords chunk).reverse 64).reverse
  let fin := (List.zip (List.range 80) ws).foldl (fun st tw => sha1Round st tw.1 tw.2) h
  ((h.1 + fin.1) % 4294967296, (h.2.1 + fin.2.1) % 4294967296,
   (h.2.2.1 + fin.2.2.1) % 4294967296, (h.2.2.2.1 + fin.2.2.2.1) % 4294967296,
   (h.2.2.2.2 + fin.2.2.2.2) % 4294967296)

/-- SHA-1 padding: `0x80`, zeros to 56 mod 64, 8-byte big-endian bit length. -/
def sha1Pad (msg : List Nat) : List Nat :=
  let bitLen := msg.length * 8
  let z := (119 - (msg.length % 64)) % 64
  msg ++ [128] ++ List.replicate z 0 ++
    [(bitLen >>> 56) % 256, (bitLen >>> 48) % 256, (bitLen >>> 40) % 256,
     (bitLen >>> 32) % 256, (bitLen >>> 24) % 256, (bitLen >>> 16) % 256,
     (bitLen >>> 8) % 256, bitLen % 256]

/-- Fold `processChunk` over successive 64-byte chunks (fuel-bounded by the
byte count). -/
def processAll : Nat → (Nat × Nat × Nat × Nat × Nat) → List Nat →
    Nat × Nat × Nat × Nat × Nat
  | _, h, [] => h
  | 0, h, _ => h
  | fuel + 1, h, bytes => processAll fuel (processChunk h (bytes.take 64)) (bytes.drop 64)

/-- The SHA-1 digest of a byte sequence, as five 32-bit words. -/
def sha1Digest (msg : List Nat) : Nat × Nat × Nat × Nat × Nat :=
  let padded := sha1Pad msg
  processAll padded.length (1732584193, 4023233417, 2562383102, 271733878, 3285377520) padded

/-- Lower-case hex digit. -/
def hexChar (n : Nat) : Char := if n < 10 then Char.ofNat (48 + n) else Char.ofNat (87 + n)

/-- Eight hex chars of a 32-bit word, most significant nibble first. -/
def wordHexChars (w : Nat) : List Char :=
  [hexChar ((w >>> 28) % 16), hexChar ((w >>> 24) % 16), hexChar ((w >>> 20) % 16),
   hexChar ((w >>> 16) % 16), hexChar ((w >>> 12) % 16), hexChar ((w >>> 8) % 16),
   hexChar ((w >>> 4) % 16), hexChar (w % 16)]

/-- `hexdigest()`: 40 hex chars. -/
def sha1hexChars (msg : List Nat) : List Char :=
  match sha1Digest msg with
  | (a, b, c, d, e) =>
    wordHexChars a ++ wordHexChars b ++ wordHexChars c ++ wordHexChars d ++ wordHexChars e

/-- UTF-8 encoding of a string, as byte values. -/
def utf8Bytes (s : String) : List Nat := s.toUTF8.data.toList.map (fun b => b.toNat)

/-- `hashlib.sha1(s.encode("utf-8")).hexdigest()`. -/
def sha1hex (s : String) : String := ⟨sha1hexChars (utf8Bytes s)⟩

/-- `_schema_fp` (qa_pipeline.py lines 22-24) applied to the canonical
serialized schema: `hexdigest()[:12]`. -/
def schema_fp (canon : String) : String := ⟨(sha1hexChars (utf8Bytes canon)).take 12⟩

/-- `CACHE_VERSION` (qa_pipeline.py line 16). -/
def CACHE_VERSION : String := "v1"

/-- `_cache_key` (lines 27-30) with the format version tag as a parameter:
`f"assistx:qa:{ver}:{schema_fp}:{qhash}"` where `qhash` is the SHA-1 hex
digest of `question.strip().lower()`. -/
def cache_key_v (ver question fp : String) : String :=
  "assistx:qa:" ++ ver ++ ":" ++ fp ++ ":" ++ sha1hex (pyLower (pyStrip question))

/-- `_cache_key` as in the source, with the pinned `CACHE_VERSION`. -/
def cache_key (question fp : String) : String := cache_key_v CACHE_VERSION question fp

/-! ## answer_question (qa_pipeline.py lines 33-133)

Rows are carried as opaque serialized values (`List String`).  The cached
object round-trips through JSON faithfully, so the cache stores `QAOut`
values structurally.  The Neo4j logging calls (`create_run`,
`log_tool_call`, `log_artifact`, `complete_run`) return no value the
pipeline inspects and are modelled as pure; every other collaborator's
fallibility is explicit. -/

/-- The assembled output dict (qa_pipeline.py lines 113-122). -/
structure QAOut where
  answer : String
  data_preview : List String
  cypher : String
  analysis_code : String
  computed : String
  stdout : String
  cached : Bool
  run_id : Option String
deriving DecidableEq, Repr

/-- `generate_analysis_code`'s structured reply `{"code": ..., "notes": ...}`. -/
structure CodePlan where
  code : Option String
  notes : Option String
deriving DecidableEq, Repr

/-- Exceptions `answer_question` lets propagate: the re-raised query error
after repair exhaustion, the `TypeError` from unpacking a `None` return of
the executor, oracle transport failures, and analysis-sandbox failures.
Cache-backend failures have no constructor here because lines 65-68 and
124-127 catch them locally. -/
inductive QAErr where
  | queryError (msg : String)
  | unpackError
  | oracleError (msg : String)
  | sandboxError (msg : String)
deriving DecidableEq, Repr

/-- The collaborator behaviours `answer_question` consumes, dependency
injected: the canonical schema serialization (`fetch_schema` +
`json.dumps`), the Redis cache read/write outcomes for this call, the run
id `create_run` would assign, the database/repair-oracle/draft behaviours
of the repair loop, the analysis-code oracle, the sandbox, and the
composing chat call.  An `.error` value is that collaborator raising. -/
structure QAEnv where
  schemaCanon : String
  cacheRead : Except Unit (Option QAOut)
  cacheWrite : Except Unit Unit
  runId : String
  exec : Nat → String → Except String (List String)
  repair : String → String → Plan
  draft : Plan
  genCode : Except String CodePlan
  runCode : String → List String → Except String (String × String)
  chat : Except String String

/-- `answer_question` (qa_pipeline.py lines 33-133): fingerprint the
schema, try the cache (treating a backend error as a miss, lines 65-68),
return the cached object with `cached := true` on a hit; otherwise run the
repair loop (its raised error propagates), unpack its triple (`None` would
make the unpacking raise), generate and run the analysis code, compose the
final answer, assemble the output, attempt the cache write swallowing any
backend error (lines 124-127), and return the output. -/
def answer_question (env : QAEnv) (question : String) (max_repairs : Int)
    (log_to_neo : Bool) : Except QAErr QAOut :=
  let fp := schema_fp env.schemaCanon
  let _ckey := cache_key question fp
  let cached : Option QAOut :=
    match env.cacheRead with
    | .error _ => none
    | .ok v => v
  match cached with
  | some obj => .ok {obj with cached := true}
  | none =>
    let run_id := if log_to_neo then some env.runId else none
    match (execute_with_repairs env.exec env.repair env.draft max_repairs).result with
    | .error e => .error (.queryError e)
    | .ok none => .error .unpackError
    | .ok (some (cypher, rows, _attempts)) =>
      match env.genCode with
      | .error e => .error (.oracleError e)
      | .ok plan =>
        let code := plan.code.getD ""
        match env.runCode code rows with
        | .error e => .error (.sandboxError e)
        | .ok (computed, stdout) =>
          match env.chat with
          | .error e => .error (.oracleError e)
          | .ok answer =>
            let out : QAOut :=
              ⟨answer, rows.take 10, cypher, code, computed, stdout, false, run_id⟩
            let _write := env.cacheWrite
            .ok out

/-- A concrete database stub whose first execution already succeeds. -/
def qaExec : Nat → String → Except String (List String) :=
  fun _ _ => .ok ["row1", "row2"]

/-- A concrete collaborator environment in which both cache operations
fail. -/
def qaEnvW : QAEnv :=
  ⟨"schema", .error (), .error (), "r1", qaExec, wRepair, wDraft,
    .ok ⟨some "def main(rows): ...", none⟩, fun _ _ => .ok ("42", "out"),
    .ok "the answer"⟩

end AssistX

namespace AssistX

lemma repairGo_spec {ρ : Type} (exec : Nat → String → Except String ρ)
    (repair : String → String → Plan) :
    ∀ (r idx : Nat) (cy : String) (pl : Plan) (acc : List Attempt), 1 ≤ r →
    ∀ res cnt tr, repairGo exec repair r idx cy pl acc = (res, cnt, tr) →
    ∃ ext : List Attempt,
      tr = acc ++ ext ∧ ext.length = cnt ∧ 1 ≤ cnt ∧ cnt ≤ r ∧
      (∀ c rws log, res = .ok (some (c, rws, log)) →
        log = acc ++ ext ∧
        ∃ pre lst, ext = pre ++ [lst] ∧ (∀ a ∈ pre, a.ok = false) ∧
          lst.ok = true ∧ lst.cypher = c ∧ exec (idx + (cnt - 1)) c = .ok rws) ∧
      (∀ e, res = .error e →
        cnt = r ∧ (∀ a ∈ ext, a.ok = false) ∧
        ∃ pre lst, ext = pre ++ [lst] ∧ lst.error = some e) ∧
      res ≠ .ok none := by
  intro r
  induction r with
  | zero => intro idx cy pl acc h; omega
  | succ r ih =>
    intro idx cy pl acc _ res cnt tr heq
    cases hx : exec idx cy with
    | ok rows =>
      simp only [repairGo, hx] at heq
      obtain ⟨h1, h2, h3⟩ : _ ∧ _ ∧ _ := by simpa using heq
      subst h1 h2 h3
      refine ⟨[⟨cy, true, none, pl.notes⟩], rfl, rfl, le_refl _, by omega, ?_, ?_, by simp⟩
      · intro c rws log hlog
        obtain ⟨hc, hr, hl⟩ : cy = c ∧ rows = rws ∧ _ = log := by simpa using hlog
        subst hc hr hl
        exact ⟨rfl, [], ⟨cy, true, none, pl.notes⟩, rfl, by simp, rfl, rfl, by simpa using hx⟩
      · intro e he; simp at he
    | error e0 =>
      by_cases hr : r = 0
      · subst hr
        simp only [repairGo, hx, if_pos rfl] at heq
        obtain ⟨h1, h2, h3⟩ : _ ∧ _ ∧ _ := by simpa using heq
        subst h1 h2 h3
        refine ⟨[⟨cy, false, some e0, none⟩], rfl, rfl, le_refl _, le_refl _, ?_, ?_, by simp⟩
        · intro c rws log hlog; simp at hlog
        · intro e he
          obtain he : e0 = e := by simpa using he
          subst he
          exact ⟨rfl, by simp, [], ⟨cy, false, some e0, none⟩, rfl, rfl⟩
      · simp only [repairGo, hx] at heq
        rw [if_neg hr] at heq
        obtain ⟨⟨res', cnt', tr'⟩, hinner⟩ :
            ∃ p, repairGo exec repair r (idx + 1) ((repair cy e0).cypher.getD cy)
              (repair cy e0) (acc ++ [⟨cy, false, some e0, none⟩]) = p := ⟨_, rfl⟩
        rw [hinner] at heq
        obtain ⟨h1, h2, h3⟩ : res' = res ∧ cnt' + 1 = cnt ∧ tr' = tr := by simpa using heq
        obtain ⟨ext', hext1, hext2, hext3, hext4, hsucc, herr, hnone⟩ :=
          ih (idx + 1) ((repair cy e0).cypher.getD cy) (repair cy e0)
            (acc ++ [⟨cy, false, some e0, none⟩]) (by omega) res' cnt' tr' hinner
        subst h1 h2 h3
        refine ⟨⟨cy, false, some e0, none⟩ :: ext', by simpa using hext1,
          by simpa using hext2, by omega, by omega, ?_, ?_, hnone⟩
        · intro c rws log hlog
          obtain ⟨hlog', pre', lst', hdec, hpre, hok, hcy, hex⟩ := hsucc c rws log hlog
          refine ⟨by simpa using hlog', ⟨cy, false, some e0, none⟩ :: pre', lst',
            by simp [hdec], ?_, hok, hcy, ?_⟩
          · intro a ha
            rcases List.mem_cons.mp ha with h | h
            · subst h; rfl
            · exact hpre a h
          · have harith : idx + 1 + (cnt' - 1) = idx + (cnt' + 1 - 1) := by omega
            rw [harith] at hex
            exact hex
        · intro e he
          obtain ⟨hcnt, hall, pre', lst', hdec, hl⟩ := herr e he
          refine ⟨by omega, ?_, ⟨cy, false, some e0, none⟩ :: pre', lst', by simp [hdec], hl⟩
          intro a ha
          rcases List.mem_cons.mp ha with h | h
          · subst h; rfl
          · exact hall a h

/-- C1: for every `maxAttempts = n ≥ 1`, `execute_with_repairs` makes at most
`n` query-execution attempts; when execution succeeds it returns immediately
with the current query, the rows, and an attempt log whose length `k` equals
the number of executions performed, with the first `k - 1` entries marked
`ok = false` and the `k`-th `ok = true`; when all `n` attempts fail it
re-raises the last execution error (the raised error is the `error` of the
last logged attempt, all `n` of which are failures) and never returns a
partial or empty success (`.ok none` is impossible for `n ≥ 1`). -/
theorem repair_loop_bounded_and_short_circuits {ρ : Type}
    (exec : Nat → String → Except String ρ) (repair : String → String → Plan)
    (draft : Plan) (n : Int) (hn : 1 ≤ n) :
    (execute_with_repairs exec repair draft n).execCalls ≤ n.toNat ∧
    (∀ c rws log,
      (execute_with_repairs exec repair draft n).result = .ok (some (c, rws, log)) →
      log = (execute_with_repairs exec repair draft n).trace ∧
      log.length = (execute_with_repairs exec repair draft n).execCalls ∧
      1 ≤ log.length ∧ log.length ≤ n.toNat ∧
      (∀ a ∈ log.dropLast, a.ok = false) ∧
      log.getLast?.map Attempt.ok = some true ∧
      log.getLast?.map Attempt.cypher = some c ∧
      exec (log.length - 1) c = .ok rws) ∧
    (∀ e, (execute_with_repairs exec repair draft n).result = .error e →
      (execute_with_repairs exec repair draft n).execCalls = n.toNat ∧
      (execute_with_repairs exec repair draft n).trace.length = n.toNat ∧
      (∀ a ∈ (execute_with_repairs exec repair draft n).trace, a.ok = false) ∧
      (execute_with_repairs exec repair draft n).trace.getLast?.map Attempt.error =
        some (some e)) ∧
    (execute_with_repairs exec repair draft n).result ≠ .ok none := by
  obtain ⟨⟨res, cnt, tr⟩, hp⟩ :
      ∃ p, repairGo exec repair n.toNat 0 (draft.cypher.getD "") draft [] = p := ⟨_, rfl⟩
  have ho : execute_with_repairs exec repair draft n = ⟨res, cnt, 1, tr⟩ := by
    simp [execute_with_repairs, hp]
  obtain ⟨ext, hext1, hext2, hext3, hext4, hsucc, herr, hnone⟩ :=
    repairGo_spec exec repair n.toNat 0 (draft.cypher.getD "") draft [] (by omega)
      res cnt tr hp
  simp only [List.nil_append] at hext1
  subst hext1
  rw [ho]
  dsimp only
  refine ⟨hext4, ?_, ?_, hnone⟩
  · intro c rws log hlog
    obtain ⟨hlog', pre, lst, hdec, hpre, hok, hcy, hex⟩ := hsucc c rws log hlog
    simp only [List.nil_append] at hlog'
    subst hlog'
    have hlen : log.length = cnt := hext2
    refine ⟨rfl, hlen, by omega, by omega, ?_, ?_, ?_, ?_⟩
    · intro a ha
      rw [hdec, List.dropLast_concat] at ha
      exact hpre a ha
    · rw [hdec, List.getLast?_concat]
      simp [hok]
    · rw [hdec, List.getLast?_concat]
      simp [hcy]
    · have : log.length - 1 = 0 + (cnt - 1) := by omega
      rw [this]
      exact hex
  · intro e he
    obtain ⟨hcnt, hall, pre, lst, hdec, hl⟩ := herr e he
    refine ⟨hcnt, by omega, hall, ?_⟩
    rw [hdec, List.getLast?_concat]
    simp [hl]

/-- C1 witness: the theorem applied at a concrete database stub that fails
once and then succeeds, with `n = 3`. -/
theorem repair_loop_bounded_and_short_circuits_witness :
    (1 : Int) ≤ 3 ∧ (execute_with_repairs wExec wRepair wDraft 3).execCalls ≤ (3 : Int).toNat :=
  ⟨by decide, (repair_loop_bounded_and_short_circuits wExec wRepair wDraft 3 (by decide)).1⟩

/-- C10: for `max_attempts ≤ 0`, `execute_with_repairs` still consumes the
one draft produced before the loop (`draftCalls = 1` records the single
unconditional `draft_cypher` call at executor.py line 17) but performs zero
execution attempts; the `for` body never runs, nothing is raised, and the
function falls through returning Python `None` (`.ok none`) instead of the
documented `(final_cypher, rows, attempts)` triple. -/
theorem repair_loop_nonpositive_attempts_returns_none {ρ : Type}
    (exec : Nat → String → Except String ρ) (repair : String → String → Plan)
    (draft : Plan) (n : Int) (hn : n ≤ 0) :
    execute_with_repairs exec repair draft n =
      ⟨.ok none, 0, 1, ([] : List Attempt)⟩ := by
  have h0 : n.toNat = 0 := by omega
  unfold execute_with_repairs
  rw [h0]
  rfl

/-- C10 witness: the theorem applied at `max_attempts = 0` with the concrete
stub environment. -/
theorem repair_loop_nonpositive_attempts_returns_none_witness :
    (0 : Int) ≤ 0 ∧ execute_with_repairs wExec wRepair wDraft 0 =
      ⟨.ok none, 0, 1, ([] : List Attempt)⟩ :=
  ⟨by decide, repair_loop_nonpositive_attempts_returns_none wExec wRepair wDraft 0 (by decide)⟩

lemma kvGet_append_of_not_found {β : Type} (l : List (String × β)) (k : String) (v : β)
    (h : l.any (fun p => decide (p.1 = k)) = false) : kvGet (l ++ [(k, v)]) k = some v := by
  induction l with
  | nil => simp [kvGet]
  | cons p rest ih =>
    obtain ⟨k', v'⟩ := p
    simp only [List.any_cons, Bool.or_eq_false_iff] at h
    have hk : ¬ k' = k := by simpa using h.1
    simp [kvGet, hk, ih h.2]

lemma kvGet_map_replace {β : Type} (l : List (String × β)) (k : String) (v : β)
    (h : l.any (fun p => decide (p.1 = k)) = true) :
    kvGet (l.map (fun p => if p.1 = k then (k, v) else p)) k = some v := by
  induction l with
  | nil => simp at h
  | cons p rest ih =>
    obtain ⟨k', v'⟩ := p
    by_cases hk : k' = k
    · subst hk
      rw [List.map_cons]
      dsimp only
      rw [if_pos rfl]
      simp [kvGet]
    · have h2 : rest.any (fun p => decide (p.1 = k)) = true := by
        simpa [hk] using h
      rw [List.map_cons]
      dsimp only
      rw [if_neg hk]
      simp [kvGet, hk, ih h2]

lemma kvGet_kvSet_self {β : Type} (l : List (String × β)) (k : String) (v : β) :
    kvGet (kvSet l k v) k = some v := by
  unfold kvSet
  by_cases hb : l.any (fun p => decide (p.1 = k)) = true
  · rw [if_pos hb]
    exact kvGet_map_replace _ _ _ hb
  · rw [if_neg hb]
    exact kvGet_append_of_not_found _ _ _ (by simp only [Bool.not_eq_true] at hb; exact hb)

lemma setStatusIdx_answers (st : StoreState) (s : String) (z : List (String × Int)) :
    (setStatusIdx st s z).answers = st.answers := by
  unfold setStatusIdx
  split_ifs <;> rfl

lemma setStatusIdx_events (st : StoreState) (s : String) (z : List (String × Int)) :
    (setStatusIdx st s z).events = st.events := by
  unfold setStatusIdx
  split_ifs <;> rfl

lemma index_upsert_answers (st : StoreState) (a : Answer) :
    (index_upsert st a).answers = st.answers := by
  unfold index_upsert
  split_ifs <;> simp [setStatusIdx_answers]

lemma index_upsert_events (st : StoreState) (a : Answer) :
    (index_upsert st a).events = st.events := by
  unfold index_upsert
  split_ifs <;> simp [setStatusIdx_events]

/-- C2 counterexample: starting from an initialised answer `a1`,
`set_result` drives it to the terminal status DONE, yet one further
`set_status(..., "RUNNING")` call moves the stored status back to RUNNING —
a non-terminal status — so a terminal status is not preserved by subsequent
`set_status` calls. -/
theorem set_status_escapes_terminal_status :
    (get_answer demoDone "a1").map Answer.status = some "DONE" ∧
    (get_answer demoAfter "a1").map Answer.status = some "RUNNING" ∧
    ("RUNNING" : String) ≠ "DONE" ∧ ("RUNNING" : String) ≠ "FAILED" := by
  decide

/-- C2 amended: `set_status` on an existing record overwrites the `status`
field unconditionally with its argument — whatever the previous status,
terminal or not — besides updating `job_id`/`run_id` when given and
refreshing `updated_at`; terminal-state preservation is a worker-side
discipline, not enforced by the store. -/
theorem set_status_overwrites_unconditionally (st : StoreState) (aid s : String)
    (j r : Option String) (now : Int) (obj0 : Answer)
    (h : get_answer st aid = some obj0) :
    get_answer (set_status st aid s j r now).1 aid = some {obj0 with
      status := s,
      job_id := match j with | none => obj0.job_id | some x => some x,
      run_id := match r with | none => obj0.run_id | some x => some x,
      updated_at := now} := by
  unfold set_status
  rw [h]
  show get_answer (index_upsert _ _) aid = _
  unfold get_answer
  rw [index_upsert_answers]
  exact kvGet_kvSet_self _ _ _

/-- C2 amended witness: the theorem applied at the concrete DONE record. -/
theorem set_status_overwrites_unconditionally_witness :
    get_answer demoDone "a1" =
      some ⟨"a1", "how many tasks", "DONE", 100, 200, none, none, some "payload", none, []⟩ ∧
    get_answer (set_status demoDone "a1" "RUNNING" none none 300).1 "a1" =
      some ⟨"a1", "how many tasks", "RUNNING", 100, 300, none, none, some "payload", none, []⟩ :=
  ⟨by decide, set_status_overwrites_unconditionally demoDone "a1" "RUNNING" none none 300
    ⟨"a1", "how many tasks", "DONE", 100, 200, none, none, some "payload", none, []⟩ (by decide)⟩

/-- C3: every state mutation attempts `_publish(obj, ev_type=...)`, but the
`_publish` binding in force (answers_store.py line 44) takes one positional
parameter only, so each mutation on an existing record raises `TypeError`
instead of returning normally, and publishes nothing — on the per-answer
channel or the global one (the two-channel publisher at lines 35-41 is
shadowed dead code).  This contradicts the claimed behaviour that each
mutation publishes the envelope on both channels and swallows publish
failures. -/
theorem mutators_raise_type_error_and_never_publish
    (st : StoreState) (aid q d e s : String) (meta : List (String × String))
    (j r : Option String) (now : Int) (obj0 : Answer)
    (h : get_answer st aid = some obj0) :
    ((init_answer st aid q meta now).2 =
        .error (.typeError "publish got an unexpected keyword argument ev_type") ∧
      (init_answer st aid q meta now).1.events = st.events) ∧
    ((set_status st aid s j r now).2 =
        .error (.typeError "publish got an unexpected keyword argument ev_type") ∧
      (set_status st aid s j r now).1.events = st.events) ∧
    ((set_result st aid d now).2 =
        .error (.typeError "publish got an unexpected keyword argument ev_type") ∧
      (set_result st aid d now).1.events = st.events) ∧
    ((set_error st aid e now).2 =
        .error (.typeError "publish got an unexpected keyword argument ev_type") ∧
      (set_error st aid e now).1.events = st.events) := by
  refine ⟨⟨rfl, ?_⟩, ?_, ?_, ?_⟩
  · show (index_upsert _ _).events = st.events
    rw [index_upsert_events]
  · unfold set_status
    rw [h]
    dsimp only [publish_call_with_ev_type]
    exact ⟨rfl, by rw [index_upsert_events]⟩
  · unfold set_result
    rw [h]
    dsimp only [publish_call_with_ev_type]
    exact ⟨rfl, by rw [index_upsert_events]⟩
  · unfold set_error
    rw [h]
    dsimp only [publish_call_with_ev_type]
    exact ⟨rfl, by rw [index_upsert_events]⟩

/-- C3 witness: the theorem applied at the concrete store `demoInit` holding
record `a1`. -/
theorem mutators_raise_type_error_and_never_publish_witness :
    get_answer demoInit "a1" =
      some ⟨"a1", "how many tasks", "QUEUED", 100, 100, none, none, none, none, []⟩ ∧
    ((init_answer demoInit "a1" "q2" [] 500).2 =
        .error (.typeError "publish got an unexpected keyword argument ev_type") ∧
      (init_answer demoInit "a1" "q2" [] 500).1.events = demoInit.events) :=
  ⟨by decide, (mutators_raise_type_error_and_never_publish demoInit "a1" "q2" "d" "e"
    "RUNNING" [] none none 500
    ⟨"a1", "how many tasks", "QUEUED", 100, 100, none, none, none, none, []⟩ (by decide)).1⟩

/-- C4 counterexample: two `save` calls on the same key, then `load`: the
second value is returned, not the first — the claimed first-writer-wins
behaviour does not hold of the plain `setex`. -/
theorem idem_save_second_write_wins :
    load (save (save [] "k1" "a1") "k1" "a2") "k1" = some "a2" ∧
    some ("a2" : String) ≠ some ("a1" : String) := by
  decide

/-- C4 amended: the idempotency store is last-writer-wins — `save` is a bare
`setex`, so after `save(k, a)` then `save(k, b)` (no eviction in between),
`load(k)` returns `b`, for every prior store contents. -/
theorem idem_save_last_writer_wins (st : List (String × String)) (k a b : String) :
    load (save (save st k a) k b) k = some b := by
  unfold load save
  exact kvGet_kvSet_self _ _ _

/-- C6 counterexample: in the in-process variant (`run_user_code`), a call
to `open` fails because the name is absent from the restricted builtins — a
`NameError`, which is not a permission (capability-denied) error — so "open
fails with a permission error in both sandbox variants" is false. -/
theorem in_process_open_not_permission_error :
    openAttempt analystBuiltins "/etc/passwd" =
      .error (.nameError "name open is not defined") ∧
    isPermissionDenied (openAttempt analystBuiltins "/etc/passwd") = false := by
  decide

/-- C6 amended: for every path, sandboxed code calling `open` never obtains
a file handle in either variant; the out-of-process runner rejects the call
with `PermissionError("file I/O disabled")` (`_no_open`), while the
in-process `run_user_code` omits `open` from its builtins altogether, so
there the call fails with a `NameError` instead of a permission error. -/
theorem sandbox_open_always_denied (path : String) :
    openAttempt runnerBuiltins path = .error (.permissionError "file I/O disabled") ∧
    openAttempt analystBuiltins path = .error (.nameError "name open is not defined") ∧
    (∀ h : FileHandle, openAttempt runnerBuiltins path ≠ .ok h) ∧
    (∀ h : FileHandle, openAttempt analystBuiltins path ≠ .ok h) := by
  refine ⟨rfl, rfl, ?_, ?_⟩ <;> intro h hc <;> simp [openAttempt, kvGet] at hc

/-- C6 amended witness: the theorem applied at the concrete path
`/etc/passwd`. -/
theorem sandbox_open_always_denied_witness :
    openAttempt runnerBuiltins "/etc/passwd" =
      .error (.permissionError "file I/O disabled") :=
  (sandbox_open_always_denied "/etc/passwd").1

lemma sha1hexChars_length (msg : List Nat) : (sha1hexChars msg).length = 40 := by
  unfold sha1hexChars
  rcases sha1Digest msg with ⟨a, b, c, d, e⟩
  simp [wordHexChars]

lemma schema_fp_data_length (s : String) : (schema_fp s).data.length = 12 := by
  show ((sha1hexChars (utf8Bytes s)).take 12).length = 12
  rw [List.length_take, sha1hexChars_length]
  decide

lemma cache_key_v_data (ver q fp : String) :
    (cache_key_v ver q fp).data =
      "assistx:qa:".data ++ (ver.data ++ (":".data ++ (fp.data ++ (":".data ++
        (sha1hex (pyLower (pyStrip q))).data)))) := by
  unfold cache_key_v
  simp [String.data_append, List.append_assoc]

/-- C7: the cache key is derived from the trimmed, lowercased question, so
questions with the same normal form (in particular `"Foo?"` and
`"  foo? "`) share a key under every fingerprint; every schema fingerprint
is 12 characters, and for distinct fingerprints — or distinct equal-length
format version tags, e.g. `"v1"` vs `"v2"` — the keys differ, making
entries under different schema fingerprints or cache-format versions
independent. -/
theorem cache_key_normalizes_and_partitions :
    (∀ q1 q2 fp, pyLower (pyStrip q1) = pyLower (pyStrip q2) →
      cache_key q1 fp = cache_key q2 fp) ∧
    (∀ fp, cache_key "Foo?" fp = cache_key "  foo? " fp) ∧
    (∀ s, (schema_fp s).length = 12) ∧
    (∀ q s1 s2, schema_fp s1 ≠ schema_fp s2 →
      cache_key q (schema_fp s1) ≠ cache_key q (schema_fp s2)) ∧
    (∀ q q' fp fp', cache_key_v "v1" q fp ≠ cache_key_v "v2" q' fp') := by
  have hnorm : ∀ q1 q2 fp, pyLower (pyStrip q1) = pyLower (pyStrip q2) →
      cache_key q1 fp = cache_key q2 fp := by
    intro q1 q2 fp h
    unfold cache_key cache_key_v
    rw [h]
  refine ⟨hnorm, fun fp => hnorm _ _ _ (by decide), fun s => schema_fp_data_length s,
    ?_, ?_⟩
  · intro q s1 s2 hne heq
    have h1 := congrArg String.data heq
    unfold cache_key CACHE_VERSION at h1
    rw [cache_key_v_data, cache_key_v_data] at h1
    have h2 := List.append_cancel_left h1
    have h3 := List.append_cancel_left h2
    have h4 := List.append_cancel_left h3
    obtain ⟨hf, -⟩ := List.append_inj h4
      (by rw [schema_fp_data_length, schema_fp_data_length])
    exact hne (String.ext hf)
  · intro q q' fp fp' heq
    have h1 := congrArg String.data heq
    rw [cache_key_v_data, cache_key_v_data] at h1
    have h2 := List.append_cancel_left h1
    obtain ⟨hv, -⟩ := List.append_inj h2 (by decide)
    exact absurd hv (by decide)

set_option maxRecDepth 40000 in
/-- C7 witness: the theorem applied at the concrete pair `"Foo?"` /
`"  foo? "` and at two concrete serialized schemas with distinct
fingerprints. -/
theorem cache_key_normalizes_and_partitions_witness :
    pyLower (pyStrip "Foo?") = pyLower (pyStrip "  foo? ") ∧
    cache_key "Foo?" "aaaaaaaaaaaa" = cache_key "  foo? " "aaaaaaaaaaaa" ∧
    schema_fp "sa" ≠ schema_fp "sb" ∧
    cache_key "q" (schema_fp "sa") ≠ cache_key "q" (schema_fp "sb") :=
  ⟨by decide, cache_key_normalizes_and_partitions.1 "Foo?" "  foo? " "aaaaaaaaaaaa"
      (by decide), by decide,
    cache_key_normalizes_and_partitions.2.2.2.1 "q" "sa" "sb" (by decide)⟩

/-- C8: a cache-backend failure never fails the question-answering
operation.  (i) A raising cache read behaves exactly like a cache miss;
(ii) the returned value is independent of the cache-write outcome; and
(iii) whenever the compute chain succeeds, the call with both cache
operations raising still returns the assembled answer — the backend error
is never propagated (indeed `QAErr` has no cache-error case to
propagate). -/
theorem cache_failures_never_fail_answering :
    (∀ (env : QAEnv) (question : String) (n : Int) (b : Bool),
      answer_question {env with cacheRead := .error ()} question n b =
      answer_question {env with cacheRead := .ok none} question n b) ∧
    (∀ (env : QAEnv) (question : String) (n : Int) (b : Bool)
      (w w' : Except Unit Unit),
      answer_question {env with cacheWrite := w} question n b =
        answer_question {env with cacheWrite := w'} question n b) ∧
    (∀ (env : QAEnv) (question : String) (n : Int) (b : Bool)
      (cypher : String) (rows : List String) (attempts : List Attempt)
      (plan : CodePlan) (computed stdout answer : String),
      (execute_with_repairs env.exec env.repair env.draft n).result =
        .ok (some (cypher, rows, attempts)) →
      env.genCode = .ok plan →
      env.runCode (plan.code.getD "") rows = .ok (computed, stdout) →
      env.chat = .ok answer →
      answer_question {env with cacheRead := .error (), cacheWrite := .error ()}
          question n b =
        .ok ⟨answer, rows.take 10, cypher, plan.code.getD "", computed, stdout, false,
          if b then some env.runId else none⟩) := by
  refine ⟨fun env question n b => rfl, fun env question n b w w' => rfl, ?_⟩
  intro env question n b cypher rows attempts plan computed stdout answer h1 h2 h3 h4
  unfold answer_question
  dsimp only
  simp only [h1, h2, h3, h4]

/-- C8 witness: the theorem's chain-success clause applied at the concrete
environment `qaEnvW` whose cache read and write both raise. -/
theorem cache_failures_never_fail_answering_witness :
    (execute_with_repairs qaEnvW.exec qaEnvW.repair qaEnvW.draft 3).result =
      .ok (some ("q1", ["row1", "row2"], [⟨"q1", true, none, none⟩])) ∧
    answer_question {qaEnvW with cacheRead := .error (), cacheWrite := .error ()}
        "any question" 3 true =
      .ok ⟨"the answer", ["row1", "row2"], "q1", "def main(rows): ...", "42", "out",
        false, some "r1"⟩ :=
  ⟨by decide, cache_failures_never_fail_answering.2.2 qaEnvW "any question" 3 true
    "q1" ["row1", "row2"] [⟨"q1", true, none, none⟩] ⟨some "def main(rows): ...", none⟩
    "42" "out" "the answer" (by decide) rfl rfl rfl⟩

lemma zrevrangebyscore_length_le (z : List (String × Int)) (maxb : Option Int)
    (num : Nat) : (zrevrangebyscore z maxb num).length ≤ num := by
  unfold zrevrangebyscore
  exact List.length_take_le _ _

lemma pageGo_scans_len (skey status : Option String) (q_norm : String)
    (limit window : Nat) :
    ∀ (fuel : Nat) (st : StoreState) (maxb : Option Int) (items : List Answer)
      (scans : List Nat),
      ((pageGo skey status q_norm limit window fuel st maxb items scans).2.2.2).length ≤
        scans.length + fuel := by
  intro fuel
  induction fuel with
  | zero =>
    intro st maxb items scans
    simp [pageGo]
  | succ fuel ih =>
    intro st maxb items scans
    by_cases hlt : items.length < limit
    · simp only [pageGo]
      rw [if_pos hlt]
      cases hlast : (zrevrangebyscore (indexFor st skey) maxb window).getLast? with
      | none => simp
      | some lastE =>
        dsimp only
        cases hout : (scanBatch status q_norm limit
            (zrevrangebyscore (indexFor st skey) maxb window) st items).2.2 with
        | some cur =>
          dsimp only
          simp
        | none =>
          dsimp only
          calc ((pageGo skey status q_norm limit window fuel
              (scanBatch status q_norm limit
                (zrevrangebyscore (indexFor st skey) maxb window) st items).1
              (some lastE.2)
              (scanBatch status q_norm limit
                (zrevrangebyscore (indexFor st skey) maxb window) st items).2.1
              (scans ++ [(zrevrangebyscore (indexFor st skey) maxb window).length])).2.2.2).length ≤
              (scans ++ [(zrevrangebyscore (indexFor st skey) maxb window).length]).length + fuel :=
              ih _ _ _ _
            _ = scans.length + (fuel + 1) := by simp; omega
    · simp only [pageGo]
      rw [if_neg hlt]
      simp

lemma pageGo_scans_all (skey status : Option String) (q_norm : String)
    (limit window : Nat) :
    ∀ (fuel : Nat) (st : StoreState) (maxb : Option Int) (items : List Answer)
      (scans : List Nat),
      ∀ b ∈ (pageGo skey status q_norm limit window fuel st maxb items scans).2.2.2,
        b ∈ scans ∨ b ≤ window := by
  intro fuel
  induction fuel with
  | zero =>
    intro st maxb items scans b hb
    simp only [pageGo] at hb
    exact Or.inl hb
  | succ fuel ih =>
    intro st maxb items scans b hb
    by_cases hlt : items.length < limit
    · simp only [pageGo] at hb
      rw [if_pos hlt] at hb
      cases hlast : (zrevrangebyscore (indexFor st skey) maxb window).getLast? with
      | none =>
        rw [hlast] at hb
        exact Or.inl hb
      | some lastE =>
        rw [hlast] at hb
        dsimp only at hb
        cases hout : (scanBatch status q_norm limit
            (zrevrangebyscore (indexFor st skey) maxb window) st items).2.2 with
        | some cur =>
          rw [hout] at hb
          dsimp only at hb
          rcases List.mem_append.mp hb with h | h
          · exact Or.inl h
          · simp only [List.mem_singleton] at h
            subst h
            exact Or.inr (zrevrangebyscore_length_le _ _ _)
        | none =>
          rw [hout] at hb
          dsimp only at hb
          rcases ih _ _ _ _ b hb with h | h
          · rcases List.mem_append.mp h with h2 | h2
            · exact Or.inl h2
            · simp only [List.mem_singleton] at h2
              subst h2
              exact Or.inr (zrevrangebyscore_length_le _ _ _)
          · exact Or.inr h
    · simp only [pageGo] at hb
      rw [if_neg hlt] at hb
      exact Or.inl hb

/-- C5 counterexample: `tieStore` holds two live answers `a` and `b` that
share `updated_at = 5`.  A page walk with `limit = 1` and no filters
returns `b` on the first page with cursor `(5, "b")`; the second page's
exclusive score bound `< 5` then skips `a` entirely and ends the walk, so
the live answer `a` is omitted — the walk does not yield every matching
live answer. -/
theorem pagination_walk_skips_tied_answer :
    walkPages none none 1 3 tieStore none = [tieB] ∧
    get_answer tieStore "a" = some tieA ∧
    tieA ∉ walkPages none none 1 3 tieStore none := by
  decide

lemma zbound_subset (z : List (String × Int)) (maxb : Option Int) :
    ∀ e ∈ zbound z maxb, e ∈ z := by
  intro e he
  unfold zbound at he
  cases maxb with
  | none => exact he
  | some b => exact List.mem_of_mem_filter he

lemma SDesc_zbound (z : List (String × Int)) (maxb : Option Int) (hs : SDesc z) :
    SDesc (zbound z maxb) := by
  unfold zbound
  cases maxb with
  | none => exact hs
  | some b => exact hs.filter _

lemma sdesc_getLast_le :
    ∀ (l : List (String × Int)), SDesc l → ∀ lst, l.getLast? = some lst →
      ∀ e ∈ l, lst.2 ≤ e.2
  | [], _, lst, hl => by simp at hl
  | [x], _, lst, hl => by
    intro e he
    have hx : x = lst := by simpa using hl
    have he' : e = x := by simpa using he
    subst hx he'
    exact le_refl _
  | x :: y :: ys, hs, lst, hl => by
    intro e he
    rw [List.getLast?_cons_cons] at hl
    obtain ⟨hx, htail⟩ := List.pairwise_cons.mp hs
    rcases List.mem_cons.mp he with h | hmem
    · subst h
      exact le_of_lt (hx lst (List.mem_of_mem_getLast? hl))
    · exact sdesc_getLast_le (y :: ys) htail lst hl e hmem

lemma zbound_after_last (z : List (String × Int)) (maxb : Option Int) (hs : SDesc z)
    (lst : String × Int) (hl : (zbound z maxb).getLast? = some lst) :
    zbound z (some lst.2) = [] := by
  have hnone : ∀ e ∈ z, ¬ (e.2 < lst.2) := by
    intro e he hlt
    by_cases hin : e ∈ zbound z maxb
    · exact absurd hlt
        (not_lt.mpr (sdesc_getLast_le _ (SDesc_zbound z maxb hs) lst hl e hin))
    · unfold zbound at hin
      cases maxb with
      | none => exact hin he
      | some b =>
        have hlstb : lst.2 < b := by
          have := List.of_mem_filter (List.mem_of_mem_getLast? hl)
          simpa using this
        exact hin (List.mem_filter.mpr ⟨he, by simp [lt_trans hlt hlstb]⟩)
  show z.filter _ = []
  rw [List.filter_eq_nil_iff]
  intro a ha
  simpa using hnone a ha

lemma scanBatch_all_live (st : StoreState) (limit : Nat)
    (hlive : ∀ e ∈ st.idxAll, optionHolds (get_answer st e.1)
      (fun a => a.id = e.1 ∧ a.updated_at = e.2)) :
    ∀ (batch : List (String × Int)) (items : List Answer),
      (∀ e ∈ batch, e ∈ st.idxAll) → items.length < limit →
      scanBatch none "" limit batch st items =
        if items.length + batch.length < limit then (st, items ++ fetched st batch, none)
        else (st, items ++ fetched st (batch.take (limit - items.length)),
          ((batch.take (limit - items.length)).getLast?).map (fun e => (e.2, e.1))) := by
  intro batch
  induction batch with
  | nil =>
    intro items hsub hlt
    rw [if_pos (by simpa using hlt)]
    simp [scanBatch, fetched]
  | cons e rest ih =>
    obtain ⟨aid, score⟩ := e
    intro items hsub hlt
    have hmem : (aid, score) ∈ st.idxAll := hsub _ (List.mem_cons_self _ _)
    have hopt := hlive _ hmem
    cases hga : get_answer st aid with
    | none =>
      rw [show ((aid, score) : String × Int).1 = aid from rfl, hga] at hopt
      exact (hopt : False).elim
    | some obj =>
      rw [show ((aid, score) : String × Int).1 = aid from rfl, hga] at hopt
      obtain ⟨hid, hupd⟩ := (hopt : obj.id = aid ∧ obj.updated_at = score)
      simp only [scanBatch, hga, statusTruthy, List.length_cons]
      rw [if_neg (show ¬ (("" : String) ≠ "" ∧
        containsSub (pyLower obj.question) "" = false) by simp)]
      by_cases hfull : (items ++ [obj]).length = limit
      · have hfl : items.length + 1 = limit := by simpa using hfull
        rw [if_pos hfull,
          if_neg (show ¬ (items.length + (rest.length + 1) < limit) by omega)]
        have hlim : limit - items.length = 1 := by omega
        rw [hlim]
        simp [fetched, hga, hid, hupd]
      · have hfl : items.length + 1 ≠ limit := by simpa using hfull
        rw [if_neg hfull]
        have hlt' : (items ++ [obj]).length < limit := by
          simp only [List.length_append, List.length_singleton]
          omega
        rw [ih (items ++ [obj]) (fun e he => hsub e (List.mem_cons_of_mem _ he)) hlt']
        have hlen : (items ++ [obj]).length = items.length + 1 := by simp
        rw [hlen]
        by_cases hrest : items.length + (rest.length + 1) < limit
        · rw [if_pos (show items.length + 1 + rest.length < limit by omega), if_pos hrest]
          simp [fetched, hga]
        · rw [if_neg (show ¬ (items.length + 1 + rest.length < limit) by omega),
            if_neg hrest]
          have hk : limit - items.length = (limit - (items.length + 1)) + 1 := by omega
          rw [hk, List.take_succ_cons]
          have hkpos : 1 ≤ limit - (items.length + 1) := by omega
          have hkrest : limit - (items.length + 1) ≤ rest.length := by omega
          have hne : rest.take (limit - (items.length + 1)) ≠ [] := by
            apply List.ne_nil_of_length_pos
            rw [List.length_take]
            omega
          obtain ⟨y, ys, hty⟩ := List.exists_cons_of_ne_nil hne
          rw [hty, List.getLast?_cons_cons]
          simp [fetched, hga]

lemma indexFor_none (st : StoreState) : indexFor st none = st.idxAll := rfl

lemma fetched_length (st : StoreState) (es : List (String × Int)) :
    (fetched st es).length = es.length := by
  simp [fetched]

lemma pageGo_step_stop {skey status : Option String} {q_norm : String}
    {limit window fuel : Nat} {st : StoreState} {maxb : Option Int}
    {items : List Answer} {scans : List Nat}
    (hlt : items.length < limit)
    (hnone : (zrevrangebyscore (indexFor st skey) maxb window).getLast? = none) :
    pageGo skey status q_norm limit window (fuel + 1) st maxb items scans =
      (st, items, none, scans) := by
  simp only [pageGo]
  rw [if_pos hlt, hnone]

lemma pageGo_step_full {skey status : Option String} {q_norm : String}
    {limit window fuel : Nat} {st : StoreState} {maxb : Option Int}
    {items : List Answer} {scans : List Nat}
    (hge : ¬ items.length < limit) :
    pageGo skey status q_norm limit window (fuel + 1) st maxb items scans =
      (st, items, none, scans) := by
  simp only [pageGo]
  rw [if_neg hge]

lemma pageGo_step_break {skey status : Option String} {q_norm : String}
    {limit window fuel : Nat} {st : StoreState} {maxb : Option Int}
    {items : List Answer} {scans : List Nat} {lastE : String × Int}
    {cur : Int × String}
    (hlt : items.length < limit)
    (hsome : (zrevrangebyscore (indexFor st skey) maxb window).getLast? = some lastE)
    (hcur : (scanBatch status q_norm limit
      (zrevrangebyscore (indexFor st skey) maxb window) st items).2.2 = some cur) :
    pageGo skey status q_norm limit window (fuel + 1) st maxb items scans =
      ((scanBatch status q_norm limit
          (zrevrangebyscore (indexFor st skey) maxb window) st items).1,
       (scanBatch status q_norm limit
          (zrevrangebyscore (indexFor st skey) maxb window) st items).2.1,
       some cur,
       scans ++ [(zrevrangebyscore (indexFor st skey) maxb window).length]) := by
  simp only [pageGo]
  rw [if_pos hlt, hsome, hcur]

lemma pageGo_step_continue {skey status : Option String} {q_norm : String}
    {limit window fuel : Nat} {st : StoreState} {maxb : Option Int}
    {items : List Answer} {scans : List Nat} {lastE : String × Int}
    (hlt : items.length < limit)
    (hsome : (zrevrangebyscore (indexFor st skey) maxb window).getLast? = some lastE)
    (hcont : (scanBatch status q_norm limit
      (zrevrangebyscore (indexFor st skey) maxb window) st items).2.2 = none) :
    pageGo skey status q_norm limit window (fuel + 1) st maxb items scans =
      pageGo skey status q_norm limit window fuel
        (scanBatch status q_norm limit
          (zrevrangebyscore (indexFor st skey) maxb window) st items).1
        (some lastE.2)
        (scanBatch status q_norm limit
          (zrevrangebyscore (indexFor st skey) maxb window) st items).2.1
        (scans ++ [(zrevrangebyscore (indexFor st skey) maxb window).length]) := by
  simp only [pageGo]
  rw [if_pos hlt, hsome, hcont]

lemma pageGo_two_rounds (st : StoreState) (limit : Nat)
    (cursor : Option (Int × String)) (fuel : Nat)
    (hlive : ∀ e ∈ st.idxAll, optionHolds (get_answer st e.1)
      (fun a => a.id = e.1 ∧ a.updated_at = e.2))
    (hs : SDesc st.idxAll) (hl : 1 ≤ limit) :
    pageGo none none "" limit (max 50 (limit * 3)) (fuel + 2) st
      (cursor.map (fun c => c.1)) [] [] =
      (st, fetched st ((remOf st cursor).take limit),
       (if limit ≤ (remOf st cursor).length
        then (((remOf st cursor).take limit).getLast?).map (fun e => (e.2, e.1))
        else none),
       (if (remOf st cursor).length = 0 then ([] : List Nat)
        else [min (max 50 (limit * 3)) (remOf st cursor).length])) := by
  have hwl : limit ≤ max 50 (limit * 3) := le_trans (by omega) (le_max_right _ _)
  have hlt0 : ([] : List Answer).length < limit := by simpa using hl
  have hbatch : zrevrangebyscore (indexFor st none) (Option.map (fun c => c.1) cursor)
      (max 50 (limit * 3)) = (remOf st cursor).take (max 50 (limit * 3)) := rfl
  cases hrem0 : remOf st cursor with
  | nil =>
    rw [pageGo_step_stop hlt0 (by rw [hbatch, hrem0, List.take_nil, List.getLast?_nil])]
    rw [if_neg (show ¬ (limit ≤ ([] : List (String × Int)).length) by
        simp only [List.length_nil]; omega),
      if_pos (show ([] : List (String × Int)).length = 0 from rfl),
      List.take_nil]
    rfl
  | cons r0 rrest =>
    have hsubAll : ∀ e ∈ (r0 :: rrest).take (max 50 (limit * 3)), e ∈ st.idxAll := by
      intro e he
      have h1 : e ∈ r0 :: rrest := List.mem_of_mem_take he
      rw [← hrem0] at h1
      exact zbound_subset _ _ e h1
    have hscan := scanBatch_all_live st limit hlive
      ((r0 :: rrest).take (max 50 (limit * 3))) [] hsubAll hlt0
    by_cases hble : limit ≤ (r0 :: rrest).length
    · -- first window yields the full page
      have hble' : limit ≤ rrest.length + 1 := by simpa using hble
      have hbne : (r0 :: rrest).take (max 50 (limit * 3)) ≠ [] := by
        apply List.ne_nil_of_length_pos
        rw [List.length_take]
        simp only [List.length_cons]
        omega
      obtain ⟨lastE, hlast⟩ : ∃ x,
          ((r0 :: rrest).take (max 50 (limit * 3))).getLast? = some x :=
        ⟨_, List.getLast?_eq_getLast_of_ne_nil hbne⟩
      have htne : (r0 :: rrest).take limit ≠ [] := by
        apply List.ne_nil_of_length_pos
        rw [List.length_take]
        simp only [List.length_cons]
        omega
      obtain ⟨lt, hlt⟩ : ∃ x, ((r0 :: rrest).take limit).getLast? = some x :=
        ⟨_, List.getLast?_eq_getLast_of_ne_nil htne⟩
      rw [if_neg (show ¬ (([] : List Answer).length +
          ((r0 :: rrest).take (max 50 (limit * 3))).length < limit) by
        rw [List.length_take]
        simp only [List.length_nil, List.length_cons, Nat.zero_add]
        omega)] at hscan
      simp only [List.length_nil, Nat.sub_zero, List.nil_append] at hscan
      rw [List.take_take, min_eq_left hwl, hlt] at hscan
      rw [pageGo_step_break hlt0 (by rw [hbatch, hrem0]; exact hlast)
        (by rw [hbatch, hrem0, hscan]; rfl)]
      rw [hbatch, hrem0, hscan]
      rw [if_pos hble, hlt]
      rw [if_neg (show ¬ ((r0 :: rrest).length = 0) by simp)]
      rw [List.length_take]
      simp
    · -- whole remainder is shorter than the page: one more (empty) window
      have hlen_lt : (r0 :: rrest).length < limit := by
        simp only [List.length_cons] at hble ⊢
        omega
      have hbatch_eq : (r0 :: rrest).take (max 50 (limit * 3)) = r0 :: rrest :=
        List.take_of_length_le (by omega)
      obtain ⟨lastE, hlast⟩ : ∃ x, (r0 :: rrest).getLast? = some x :=
        ⟨_, List.getLast?_eq_getLast_of_ne_nil (by simp)⟩
      rw [hbatch_eq] at hscan
      rw [if_pos (show ([] : List Answer).length + (r0 :: rrest).length < limit by
        simp only [List.length_nil, Nat.zero_add]
        omega)] at hscan
      simp only [List.nil_append] at hscan
      rw [pageGo_step_continue hlt0
        (by rw [hbatch, hrem0, hbatch_eq]; exact hlast)
        (by rw [hbatch, hrem0, hbatch_eq, hscan])]
      rw [hbatch, hrem0, hbatch_eq, hscan]
      dsimp only
      have hz : zbound st.idxAll (some lastE.2) = [] := by
        apply zbound_after_last st.idxAll (cursor.map (fun c => c.1)) hs lastE
        rw [show zbound st.idxAll (cursor.map (fun c => c.1)) = remOf st cursor from rfl,
          hrem0]
        exact hlast
      rw [pageGo_step_stop
        (show (fetched st (r0 :: rrest)).length < limit by rw [fetched_length]; omega)
        (by rw [show zrevrangebyscore (indexFor st none) (some lastE.2)
            (max 50 (limit * 3)) =
            (zbound st.idxAll (some lastE.2)).take (max 50 (limit * 3)) from rfl,
          hz, List.take_nil, List.getLast?_nil])]
      rw [List.take_of_length_le (le_of_lt hlen_lt)]
      rw [if_neg hble]
      rw [if_neg (show ¬ ((r0 :: rrest).length = 0) by simp)]
      rw [min_eq_right (by omega)]
      simp

lemma page_no_filter (st : StoreState) (limit : Nat) (cursor : Option (Int × String))
    (hcons : Consistent st) (hs : SDesc st.idxAll) (hl : 1 ≤ limit) :
    list_answers_paginated st none none limit cursor =
      (st, ⟨fetched st ((remOf st cursor).take limit),
        (fetched st ((remOf st cursor).take limit)).length,
        if limit ≤ (remOf st cursor).length
        then (((remOf st cursor).take limit).getLast?).map (fun e => (e.2, e.1))
        else none,
        if (remOf st cursor).length = 0 then []
        else [min (max 50 (limit * 3)) (remOf st cursor).length]⟩) := by
  unfold list_answers_paginated
  dsimp only
  rw [show pyLower (pyStrip ((none : Option String).getD "")) = "" from rfl]
  rw [show (6 : Nat) = 4 + 2 from rfl]
  rw [pageGo_two_rounds st limit cursor 4 hcons.1 hs hl]

lemma zbound_at_take_last (z : List (String × Int)) (maxb : Option Int)
    (hs : SDesc z) (limit : Nat) (lt : String × Int)
    (hlt : ((zbound z maxb).take limit).getLast? = some lt) :
    zbound z (some lt.2) = (zbound z maxb).drop limit := by
  have hsrem : SDesc (zbound z maxb) := SDesc_zbound z maxb hs
  have hltmem : lt ∈ (zbound z maxb).take limit := List.mem_of_mem_getLast? hlt
  have hltrem : lt ∈ zbound z maxb := List.mem_of_mem_take hltmem
  have hstep1 : zbound z (some lt.2) =
      (zbound z maxb).filter (fun p => decide (p.2 < lt.2)) := by
    unfold zbound
    cases maxb with
    | none => rfl
    | some b =>
      rw [List.filter_filter]
      apply List.filter_congr
      intro a _
      by_cases hq : a.2 < lt.2
      · have hp : a.2 < b := by
          have hlb : lt.2 < b := by
            have h := List.of_mem_filter
              (show lt ∈ z.filter (fun p => decide (p.2 < b)) from hltrem)
            simpa using h
          exact lt_trans hq hlb
        simp [hp, hq]
      · simp [hq]
  rw [hstep1]
  conv_lhs => rw [← List.take_append_drop limit (zbound z maxb)]
  rw [List.filter_append]
  have h1 : ((zbound z maxb).take limit).filter (fun p => decide (p.2 < lt.2)) = [] := by
    rw [List.filter_eq_nil_iff]
    intro a ha
    have hle := sdesc_getLast_le _ (hsrem.sublist (List.take_sublist _ _)) lt hlt a ha
    simp only [decide_eq_true_eq]
    omega
  have h2 : ((zbound z maxb).drop limit).filter (fun p => decide (p.2 < lt.2)) =
      (zbound z maxb).drop limit := by
    rw [List.filter_eq_self]
    intro a ha
    have hpw := (List.pairwise_append.mp
      ((List.take_append_drop limit (zbound z maxb)).symm ▸ hsrem)).2.2
    have := hpw lt hltmem a ha
    simp only [decide_eq_true_eq]
    omega
  rw [h1, h2, List.nil_append]

lemma walkPages_step_none (status q : Option String) (limit fuel : Nat)
    (st : StoreState) (cursor : Option (Int × String))
    (hnc : (list_answers_paginated st status q limit cursor).2.next_cursor = none) :
    walkPages status q limit (fuel + 1) st cursor =
      (list_answers_paginated st status q limit cursor).2.items := by
  simp only [walkPages]
  rw [hnc]
  simp

lemma walkPages_step_some (status q : Option String) (limit fuel : Nat)
    (st : StoreState) (cursor : Option (Int × String)) (c : Int × String)
    (hnc : (list_answers_paginated st status q limit cursor).2.next_cursor = some c) :
    walkPages status q limit (fuel + 1) st cursor =
      (list_answers_paginated st status q limit cursor).2.items ++
        walkPages status q limit fuel
          (list_answers_paginated st status q limit cursor).1 (some c) := by
  simp only [walkPages]
  rw [hnc]

lemma walk_no_filter (st : StoreState) (limit : Nat)
    (hcons : Consistent st) (hs : SDesc st.idxAll) (hl : 1 ≤ limit) :
    ∀ (fuel : Nat) (cursor : Option (Int × String)),
      (remOf st cursor).length < fuel →
      walkPages none none limit fuel st cursor = fetched st (remOf st cursor) := by
  intro fuel
  induction fuel with
  | zero =>
    intro cursor h
    omega
  | succ fuel ih =>
    intro cursor hflt
    have hpage := page_no_filter st limit cursor hcons hs hl
    by_cases hble : limit ≤ (remOf st cursor).length
    · have htne : (remOf st cursor).take limit ≠ [] := by
        apply List.ne_nil_of_length_pos
        rw [List.length_take]
        omega
      obtain ⟨lt, hlt⟩ : ∃ x, ((remOf st cursor).take limit).getLast? = some x :=
        ⟨_, List.getLast?_eq_getLast_of_ne_nil htne⟩
      have hnc : (list_answers_paginated st none none limit cursor).2.next_cursor =
          some (lt.2, lt.1) := by
        rw [hpage]
        dsimp only
        rw [if_pos hble, hlt]
        rfl
      have hst : (list_answers_paginated st none none limit cursor).1 = st := by
        rw [hpage]
      have hitems : (list_answers_paginated st none none limit cursor).2.items =
          fetched st ((remOf st cursor).take limit) := by
        rw [hpage]
      rw [walkPages_step_some none none limit fuel st cursor (lt.2, lt.1) hnc,
        hitems, hst]
      have hlt2 : ((zbound st.idxAll (cursor.map (fun c => c.1))).take limit).getLast? =
          some lt := hlt
      have hrem0' : zbound st.idxAll (some lt.2) =
          (zbound st.idxAll (cursor.map (fun c => c.1))).drop limit :=
        zbound_at_take_last st.idxAll (cursor.map (fun c => c.1)) hs limit lt hlt2
      have hrem' : remOf st (some (lt.2, lt.1)) = (remOf st cursor).drop limit := hrem0'
      rw [ih (some (lt.2, lt.1)) (by rw [hrem', List.length_drop]; omega), hrem']
      unfold fetched
      rw [← List.map_append, List.take_append_drop]
    · have hnc : (list_answers_paginated st none none limit cursor).2.next_cursor =
          none := by
        rw [hpage]
        dsimp only
        rw [if_neg hble]
      rw [walkPages_step_none none none limit fuel st cursor hnc]
      rw [hpage]
      dsimp only
      rw [List.take_of_length_le (by omega)]

/-- C5 amended: with no status or substring filter, when the global index is
consistent with the record keyspace and all live answers have pairwise
distinct `updated_at` scores, walking `list_answers_paginated` page by page
(feeding each `next_cursor` back until it is null) yields exactly the index:
the items, projected to `(id, updated_at)`, equal the index list, every live
answer appears (and, by the projection equality and the id-nodup clause,
exactly once), and the items are in strictly descending `updated_at` order.
Equal `updated_at` scores can instead be skipped at page boundaries — see
the tie counterexample — and within one window Redis orders ties by
descending id, not ascending. -/
theorem pagination_walk_complete_without_ties (st : StoreState) (limit : Nat)
    (hcons : Consistent st) (hs : SDesc st.idxAll) (hl : 1 ≤ limit) :
    (walkPages none none limit (st.idxAll.length + 1) st none).map
        (fun a => (a.id, a.updated_at)) = st.idxAll ∧
    (∀ p ∈ st.answers, p.2 ∈ walkPages none none limit (st.idxAll.length + 1) st none) ∧
    ((walkPages none none limit (st.idxAll.length + 1) st none).map Answer.id).Nodup ∧
    (walkPages none none limit (st.idxAll.length + 1) st none).Pairwise
      (fun a b => b.updated_at < a.updated_at) := by
  obtain ⟨hlive, hcomp⟩ := hcons
  have hwalk : walkPages none none limit (st.idxAll.length + 1) st none =
      fetched st st.idxAll :=
    walk_no_filter st limit ⟨hlive, hcomp⟩ hs hl (st.idxAll.length + 1) none
      (by rw [show remOf st none = st.idxAll from rfl]; omega)
  rw [hwalk]
  have hmap : (fetched st st.idxAll).map (fun a => (a.id, a.updated_at)) = st.idxAll := by
    unfold fetched
    rw [List.map_map]
    have hpt : ∀ e ∈ st.idxAll, ((fun a => (a.id, a.updated_at)) ∘
        (fun e => (get_answer st e.1).getD dummyAnswer)) e = id e := by
      intro e he
      have h := hlive e he
      cases hga : get_answer st e.1 with
      | none =>
        rw [hga] at h
        exact (h : False).elim
      | some a =>
        rw [hga] at h
        obtain ⟨h1, h2⟩ := (h : a.id = e.1 ∧ a.updated_at = e.2)
        simp [Function.comp, hga, h1, h2]
    rw [List.map_congr_left hpt, List.map_id]
  refine ⟨hmap, ?_, ?_, ?_⟩
  · intro p hp
    obtain ⟨hidx, hkey, hget⟩ := hcomp p hp
    rw [hkey] at hget
    unfold fetched
    apply List.mem_map.mpr
    refine ⟨(p.2.id, p.2.updated_at), hidx, ?_⟩
    rw [show ((p.2.id, p.2.updated_at) : String × Int).1 = p.2.id from rfl, hget]
    rfl
  · have hpw : st.idxAll.Pairwise (fun a b => a.1 ≠ b.1) := by
      refine hs.imp_of_mem ?_
      intro a b ha hb hr heq
      have h1 := hlive a ha
      have h2 := hlive b hb
      rw [← heq] at h2
      cases hga : get_answer st a.1 with
      | none =>
        rw [hga] at h1
        exact (h1 : False).elim
      | some x =>
        rw [hga] at h1
        rw [hga] at h2
        obtain ⟨h11, h12⟩ := (h1 : x.id = a.1 ∧ x.updated_at = a.2)
        obtain ⟨h21, h22⟩ := (h2 : x.id = a.1 ∧ x.updated_at = b.2)
        rw [h12] at h22
        omega
    have hids : (fetched st st.idxAll).map Answer.id = st.idxAll.map Prod.fst := by
      have h := congrArg (List.map Prod.fst) hmap
      rw [List.map_map] at h
      exact h
    rw [hids]
    exact List.pairwise_map.mpr hpw
  · have h := hs
    rw [← hmap] at h
    exact List.pairwise_map.mp h

set_option maxRecDepth 4000 in
/-- C5 amended witness: the theorem applied at the concrete two-answer store
`duoStore` with distinct `updated_at` scores and `limit = 1`. -/
theorem pagination_walk_complete_without_ties_witness :
    Consistent duoStore ∧ SDesc duoStore.idxAll ∧ 1 ≤ 1 ∧
    (walkPages none none 1 (duoStore.idxAll.length + 1) duoStore none).map
      (fun a => (a.id, a.updated_at)) = duoStore.idxAll :=
  ⟨by decide, by decide, by decide,
    (pagination_walk_complete_without_ties duoStore 1 (by decide) (by decide)
      (by decide)).1⟩

set_option maxRecDepth 20000 in
/-- C9: every `list_answers_paginated` call fetches at most 6 index windows
of at most `max 50 (3 * limit)` entries each (so the scan always
terminates), and a call can return fewer than `limit` items with a null
`next_cursor` while matching live answers remain deeper in the index: on
`deepStore`, whose first full 50-entry window holds only candidates the
substring filter rejects, the call returns zero items and stops, yet the
live answer `i00` matches the filter and was never reached. -/
theorem listing_scans_bounded_yet_can_miss_deep_matches :
    (∀ st status q limit cursor,
      ((list_answers_paginated st status q limit cursor).2.scans).length ≤ 6 ∧
      ∀ b ∈ (list_answers_paginated st status q limit cursor).2.scans,
        b ≤ max 50 (limit * 3)) ∧
    (list_answers_paginated deepStore none (some "needle") 1 none).2 =
      ⟨[], 0, none, [50]⟩ ∧
    get_answer deepStore "i00" = some (deepAnswer 50) ∧
    containsSub (pyLower (deepAnswer 50).question) "needle" = true := by
  refine ⟨?_, by decide, by decide, by decide⟩
  intro st status q limit cursor
  unfold list_answers_paginated
  dsimp only
  constructor
  · exact le_trans (pageGo_scans_len _ _ _ _ _ 6 st _ [] []) (by simp)
  · intro b hb
    rcases pageGo_scans_all _ _ _ _ _ 6 st _ [] [] b hb with h | h
    · simp at h
    · exact h

/-- C9 witness: the window-budget clause of the theorem applied at the empty
store. -/
theorem listing_scans_bounded_witness :
    ((list_answers_paginated emptyStore none none 5 none).2.scans).length ≤ 6 :=
  (listing_scans_bounded_yet_can_miss_deep_matches.1 emptyStore none none 5 none).1


end AssistX




